import Mathlib

/-!
Verification of the MySQL connection-pool core (pool manager, session
lifecycle, replica selector) against its natural-language specification.

The C++ sources are shallowly embedded: pure functions become Lean
functions; stateful operations become explicit state-passing functions on a
`PoolState` record; results of external driver calls (connect, ping, query)
and of the clock are supplied as oracle parameters; machine integers are
`Nat` with an explicit `% 2 ^ 32` (resp. `% 2 ^ 64`) where C++ unsigned
wrap-around matters; fallible code returns `Except`/`Option`.
-/

namespace MySQLCP

/-! ## Transport-error classification, `Connection::isConnectionError`
(src/src/connection.cpp lines 453-476).  The C++ is a chain of
`else if (errorCode == k)` tests returning `true` for the six transport
kinds and `false` otherwise. -/

def isConnectionError (errorCode : Nat) : Bool :=
  if errorCode = 2002 then true
  else if errorCode = 2003 then true
  else if errorCode = 2006 then true
  else if errorCode = 2013 then true
  else if errorCode = 2027 then true
  else if errorCode = 2055 then true
  else false

/-! ## `Connection::isValid(bool tryReconnect)`
(src/src/connection.cpp lines 198-226).

The body is a block `{ ... }` holding the lock, followed by
`return reconnect();`.  Inside the block every control path returns:
no handle => `return false`; ping fails and (`!tryReconnect` or the error
kind is not a transport error) => `return false`; otherwise control reaches
`updateLastActiveTime(); return true;`.  Hence `return reconnect()` after
the block is unreachable dead code, and a failed ping with a transport
error kind and `tryReconnect = true` yields `true`.

Driver responses are oracle parameters: `hasHandle` is whether `m_mysql`
is non-null, `pingOk` is whether `mysql_ping` returned 0, `errno` the
driver error kind, and `reconnectResult` what `reconnect()` would return
were it called (it never is). -/

def Connection.isValid (hasHandle pingOk : Bool) (errno : Nat)
    (tryReconnect : Bool) (reconnectResult : Bool) : Bool :=
  if !hasHandle then false
  else if !pingOk then
    if !tryReconnect || !(isConnectionError errno) then
      false
    else
      -- control falls out of the inner `if` and reaches
      -- `updateLastActiveTime(); return true;`; the trailing
      -- `return reconnect();` of the source is never executed,
      -- so `reconnectResult` is unused
      true
  else true

/-! ## `Connection::calculateReconnectDelay`
(src/src/connection.cpp lines 479-499).

`baseDelay * (1 << (attempt - 1))` is `unsigned int` arithmetic, i.e. the
product modulo `2 ^ 32` (the shift itself is well defined for
`attempt - 1 <= 30`).  The jitter `dist(rng)` is a `double` drawn from
`U(0.8, 1.2)`; it is modelled as a rational parameter `u`.  The final
`static_cast<unsigned int>(std::max(1.0, jitteredDelay))` truncates toward
zero, i.e. takes the floor of a nonnegative value. -/

def cappedDelay (reconnectInterval attempt : Nat) : Nat :=
  min ((reconnectInterval * 2 ^ (attempt - 1)) % 2 ^ 32) 30000

def calculateReconnectDelay (reconnectInterval attempt : Nat) (u : ℚ) : Nat :=
  let delay := cappedDelay reconnectInterval attempt
  let jitteredDelay : ℚ := (delay : ℚ) * u
  (⌊max 1 jitteredDelay⌋).toNat

/-! ## `Connection::executeQueryWithReconnect`
(src/src/connection.cpp lines 290-341).

The loop runs `attempt = 0 .. m_reconnectAttempts`.  For `attempt > 0` it
first calls `reconnect()`; on reconnect failure it records
`errorMessage = "Failed to reconnect"` and `continue`s without touching the
driver.  Otherwise it calls `executeInternal`; on success it returns; on a
`SQLExecutionError` whose kind is not a transport error it throws
`std::runtime_error` at once; on a transport-kind error it stores the
message and falls through to the next attempt.  After the loop it throws
`std::runtime_error` whose message embeds the last stored `errorMessage`.

The outcome of each `executeInternal` call is an oracle `execOutcome`
indexed by the attempt number, and the outcome of each `reconnect()` call
is an oracle `reconOk`.  `QueryRunResult` also counts the number of
`executeInternal` invocations performed. -/

inductive ExecOutcome where
  | ok : ExecOutcome
  | err (code : Nat) (msg : String) : ExecOutcome
deriving DecidableEq

inductive QueryRunResult where
  /-- `executeInternal` succeeded; the query result is returned. -/
  | success (execCalls : Nat) : QueryRunResult
  /-- a non-transport SQL error: `std::runtime_error` thrown immediately. -/
  | sqlError (code : Nat) (execCalls : Nat) : QueryRunResult
  /-- all attempts used up: `std::runtime_error` carrying the last message. -/
  | exhausted (lastMsg : String) (execCalls : Nat) : QueryRunResult
deriving DecidableEq

def QueryRunResult.execCalls : QueryRunResult → Nat
  | .success n => n
  | .sqlError _ n => n
  | .exhausted _ n => n

def ewrGo (execOutcome : Nat → ExecOutcome) (reconOk : Nat → Bool) :
    Nat → Nat → String → Nat → QueryRunResult
  | 0, _, lastMsg, calls => .exhausted lastMsg calls
  | n + 1, attempt, lastMsg, calls =>
    if attempt > 0 && !(reconOk attempt) then
      ewrGo execOutcome reconOk n (attempt + 1) "Failed to reconnect" calls
    else
      match execOutcome attempt with
      | .ok => .success (calls + 1)
      | .err c m =>
        if !(isConnectionError c) then .sqlError c (calls + 1)
        else ewrGo execOutcome reconOk n (attempt + 1) m (calls + 1)

def executeQueryWithReconnect (reconnectAttempts : Nat)
    (execOutcome : Nat → ExecOutcome) (reconOk : Nat → Bool) : QueryRunResult :=
  ewrGo execOutcome reconOk (reconnectAttempts + 1) 0 "" 0

/-! ## Replica selector (src/src/load_balancer.cpp).

`DBConfig` is the backend descriptor of src/include/db_config.h.
`selectWeighted` (lines 111-138) draws `randomWeight` uniformly from
`[0, totalWeights)` (oracle parameter here) and walks the descriptors
accumulating weights, returning the first whose cumulative weight exceeds
the draw; if the walk falls through it returns `m_configs[0]`.
`getNextDatabase` (lines 51-69) raises on an empty list and otherwise
dispatches on the strategy (the unknown-strategy fallback is weighted). -/

structure DBConfig where
  host : String
  user : String
  password : String
  database : String
  port : Nat
  weight : Nat
deriving DecidableEq

inductive LoadBalanceStrategy where
  | RANDOM : LoadBalanceStrategy
  | ROUND_ROBIN : LoadBalanceStrategy
  | WEIGHTED : LoadBalanceStrategy
deriving DecidableEq

structure LoadBalancer where
  configs : List DBConfig
  strategy : LoadBalanceStrategy
  roundRobinIndex : Nat
deriving DecidableEq

def selectWeightedGo (randomWeight : Nat) :
    List DBConfig → Nat → Option DBConfig
  | [], _ => none
  | c :: rest, currentWeight =>
    if randomWeight < currentWeight + c.weight then some c
    else selectWeightedGo randomWeight rest (currentWeight + c.weight)

def selectWeighted (configs : List DBConfig) (randomWeight : Nat) :
    Option DBConfig :=
  match selectWeightedGo randomWeight configs 0 with
  | some c => some c
  | none => configs.head?

/-- `selectRandom` (lines 89-96): `idx` is the uniform draw from
`[0, size)`; an out-of-range index would be undefined behaviour in the
source and is modelled as `none`. -/
def selectRandom (configs : List DBConfig) (idx : Nat) : Option DBConfig :=
  configs.get? idx

/-- `selectRoundRobin` (lines 99-108), selection only; the cursor advance
does not matter for the claims below. -/
def selectRoundRobin (configs : List DBConfig) (rr : Nat) : Option DBConfig :=
  configs.get? rr

def getNextDatabase (lb : LoadBalancer) (draw : Nat) :
    Except String DBConfig :=
  if lb.configs.isEmpty then
    .error "No database configurations available"
  else
    match lb.strategy with
    | .RANDOM =>
      match selectRandom lb.configs draw with
      | some c => .ok c
      | none => .error "index out of range"
    | .ROUND_ROBIN =>
      match selectRoundRobin lb.configs (lb.roundRobinIndex % lb.configs.length) with
      | some c => .ok c
      | none => .error "index out of range"
    | .WEIGHTED =>
      match selectWeighted lb.configs draw with
      | some c => .ok c
      | none => .error "index out of range"

/-- Sum of the weights of the first `i` descriptors. -/
def prefixWeight (configs : List DBConfig) (i : Nat) : Nat :=
  ((configs.take i).map (fun c => c.weight)).sum

/-- `totalWeights` as computed at the top of `selectWeighted`. -/
def totalWeights (configs : List DBConfig) : Nat :=
  (configs.map (fun c => c.weight)).sum

/-! ## Pool configuration (src/include/pool_config.h).

Only the numeric fields tested by `PoolConfig::isValid` (lines 98-126) are
kept; the default database fields do not enter any validity check or pool
operation. -/

structure PoolConfig where
  minConnections : Nat
  maxConnections : Nat
  initConnections : Nat
  connectionTimeout : Nat
  maxIdleTime : Nat
  healthCheckPeriod : Nat
  reconnectInterval : Nat
  reconnectAttempts : Nat
deriving DecidableEq

def PoolConfig.isValid (c : PoolConfig) : Bool :=
  if c.minConnections = 0 ∨ c.maxConnections = 0 ∨
      c.minConnections > c.maxConnections ∨
      c.initConnections > c.maxConnections then
    false
  else if c.connectionTimeout = 0 ∨ c.maxIdleTime = 0 ∨
      c.healthCheckPeriod = 0 then
    false
  else true

/-- Defaults of the `PoolConfig()` constructor (pool_config.h lines 59-71). -/
def PoolConfig.defaults : PoolConfig :=
  { minConnections := 5
    maxConnections := 20
    initConnections := 5
    connectionTimeout := 5000
    maxIdleTime := 600000
    healthCheckPeriod := 30000
    reconnectInterval := 1000
    reconnectAttempts := 3 }

/-! ## Pool state (src/include/connection_pool.h lines 151-163).

Sessions are identified by their connection id, abstracted to a `Nat`.
`idle` is the FIFO `m_idleConnections` (head = front), `active` the key set
of the `m_activeConnections` map (a `std::map`, so keys are unique), and
`total` the `std::atomic<size_t> m_totalConnections`.  Timestamps are not
carried in the state: whether a session's ping succeeds and whether it has
been idle longer than `maxIdleTime` are environment facts, supplied to the
operations as oracles.  All decrements of `total` reasoned about below
happen at values `>= 1`, where `Nat` subtraction agrees with `size_t`
arithmetic. -/

structure PoolState where
  config : PoolConfig
  idle : List Nat
  active : List Nat
  total : Nat
  running : Bool
deriving DecidableEq

/-- State of a freshly constructed pool (`ConnectionPool()` constructor,
connection_pool.cpp lines 13-17). -/
def PoolState.initial : PoolState :=
  { config := PoolConfig.defaults
    idle := []
    active := []
    total := 0
    running := false }

/-- `m_activeConnections[id] = conn`: a `std::map` insert keyed by the
connection id; inserting an existing key leaves the key set unchanged. -/
def insertActive (cid : Nat) (active : List Nat) : List Nat :=
  if cid ∈ active then active else cid :: active

/-! ## `ConnectionPool::init` (src/src/connection_pool.cpp lines 270-349).

If the pool is already running the source logs a warning and returns
normally — it does not throw — leaving the state untouched.  An invalid
config throws before `m_config` is assigned.  Otherwise it records the
config and tries to create `min(initConnections, maxConnections)`
sessions; each creation outcome is the oracle `create i`:
`none` models a throw from `createConnection` (caught, loop continues),
`some (cid, v)` a connected session `cid` whose quiet validation returned
`v` (on `v = false` the session is closed and dropped).  If the target was
positive and nothing was created it throws; otherwise it marks the pool
running. -/

def collectCreated (create : Nat → Option (Nat × Bool)) (target : Nat) :
    List Nat :=
  (List.range target).filterMap (fun i =>
    match create i with
    | some (cid, true) => some cid
    | _ => none)

def ConnectionPool.init (create : Nat → Option (Nat × Bool))
    (s : PoolState) (cfg : PoolConfig) : Except String PoolState :=
  if s.running then
    .ok s
  else if ¬cfg.isValid then
    .error "ConnectionPool::init init connectionPool, but config is not valid"
  else
    let target := min cfg.initConnections cfg.maxConnections
    let created := collectCreated create target
    if 0 < target ∧ created.length = 0 then
      .error "no connections has been created"
    else
      .ok { config := cfg
            idle := s.idle ++ created
            active := s.active
            total := s.total + created.length
            running := true }

/-! ## `ConnectionPool::getConnection` (src/src/connection_pool.cpp
lines 142-216).

One oracle value per loop iteration `k`:
`vIdle k` is the result of `validateConnection` on the idle head (consulted
only when the idle branch is taken), `create k` the outcome of the unlocked
`createConnection` plus validation (as in `init`), and `timeoutAt k`
whether the `wait_until` of iteration `k` times out.

The transcription keeps the source's behaviour exactly: in the idle branch
the head is inspected with `front()` and popped only when it validates;
when it does not, `m_totalConnections--` runs and the loop continues with
the head still in the queue.  In the creation branch a failed or
invalid creation falls through to the wait.  `fuel` bounds the number of
iterations modelled; `outOfFuel` carries the state reached so far. -/

inductive AcquireResult where
  | ok (s : PoolState) (cid : Nat) : AcquireResult
  | timeout (s : PoolState) : AcquireResult
  | notRunning : AcquireResult
  | outOfFuel (s : PoolState) : AcquireResult
deriving DecidableEq

def getConnectionGo (vIdle : Nat → Bool) (create : Nat → Option (Nat × Bool))
    (timeoutAt : Nat → Bool) : Nat → Nat → PoolState → AcquireResult
  | 0, _, s => .outOfFuel s
  | fuel + 1, k, s =>
    match s.idle with
    | cid :: rest =>
      if vIdle k then
        .ok { s with idle := rest, active := insertActive cid s.active } cid
      else
        -- source bug: `m_idleConnections.pop()` is only executed in the
        -- valid branch; here only the counter is decremented
        getConnectionGo vIdle create timeoutAt fuel (k + 1)
          { s with total := s.total - 1 }
    | [] =>
      if s.total < s.config.maxConnections then
        match create k with
        | some (cid, true) =>
          .ok { s with total := s.total + 1,
                       active := insertActive cid s.active } cid
        | _ =>
          -- creation threw (caught) or the new session failed validation:
          -- control reaches the wait at the bottom of the loop
          if timeoutAt k then .timeout s
          else getConnectionGo vIdle create timeoutAt fuel (k + 1) s
      else
        if timeoutAt k then .timeout s
        else getConnectionGo vIdle create timeoutAt fuel (k + 1) s

def ConnectionPool.getConnection (vIdle : Nat → Bool)
    (create : Nat → Option (Nat × Bool)) (timeoutAt : Nat → Bool)
    (fuel : Nat) (s : PoolState) : AcquireResult :=
  if !s.running then .notRunning
  else getConnectionGo vIdle create timeoutAt fuel 0 s

/-! ## `ConnectionPool::releaseConnection` (src/src/connection_pool.cpp
lines 219-267).

Called with a non-null session `cid` (the null case returns at once and
changes nothing).  `validRes` is the result of `validateConnection` on the
released session; `createRes` the outcome of the replacement
`createConnection` (consulted only on the invalid path when the pool fell
below the minimum).  The map erase runs first and is a no-op when `cid` is
not a key; no check that `cid` was actually checked out is made. -/

def ConnectionPool.releaseConnection (validRes : Bool)
    (createRes : Option (Nat × Bool)) (s : PoolState) (cid : Nat) :
    PoolState :=
  let a := s.active.erase cid
  if s.total > s.config.maxConnections then
    { s with active := a, total := s.total - 1 }
  else if validRes then
    { s with active := a, idle := s.idle ++ [cid] }
  else
    let t := s.total - 1
    if t < s.config.minConnections then
      match createRes with
      | some (nid, true) =>
        { s with active := a, total := t + 1, idle := s.idle ++ [nid] }
      | _ => { s with active := a, total := t }
    else
      { s with active := a, total := t }

/-! ## `ConnectionPool::cleanupIdleConnections` (src/src/connection_pool.cpp
lines 469-514).

The idle queue is drained into a keep queue.  For the session at the
front: `valid c` is its `isValidQuietly()` result and `old c` is whether
`now - lastActiveTime > maxIdleTime`.  A valid fresh session is kept; a
valid aged one is kept only when `m_totalConnections <
m_config.minConnections` (strict `<` in the source); every other session is
closed and the counter decremented. -/

def cleanupGo (minC : Nat) (valid old : Nat → Bool) :
    List Nat → List Nat → Nat → List Nat × Nat
  | [], keep, total => (keep, total)
  | c :: rest, keep, total =>
    if valid c then
      if !(old c) then cleanupGo minC valid old rest (keep ++ [c]) total
      else if total < minC then
        cleanupGo minC valid old rest (keep ++ [c]) total
      else cleanupGo minC valid old rest keep (total - 1)
    else cleanupGo minC valid old rest keep (total - 1)

def ConnectionPool.cleanupIdleConnections (valid old : Nat → Bool)
    (s : PoolState) : PoolState :=
  let r := cleanupGo s.config.minConnections valid old s.idle [] s.total
  { s with idle := r.1, total := r.2 }

/-! ## `ConnectionPool::ensureMinimumConnections`
(src/src/connection_pool.cpp lines 444-467).

When below the minimum, `neededCreationCount` is fixed up front and the
loop tries that many creations.  A throw from `createConnection` is not
caught here — it propagates to the health worker — so it aborts the
remaining iterations. -/

def ensureMinGo (create : Nat → Option (Nat × Bool)) :
    Nat → Nat → PoolState → PoolState
  | 0, _, s => s
  | n + 1, i, s =>
    match create i with
    | some (cid, true) =>
      ensureMinGo create n (i + 1)
        { s with idle := s.idle ++ [cid], total := s.total + 1 }
    | some (_, false) => ensureMinGo create n (i + 1) s
    | none => s

def ConnectionPool.ensureMinimumConnections
    (create : Nat → Option (Nat × Bool)) (s : PoolState) : PoolState :=
  if s.total < s.config.minConnections then
    ensureMinGo create (s.config.minConnections - s.total) 0 s
  else s

/-! ## `ConnectionPool::shrinkPoolToSize` and
`ConnectionPool::adjustConfiguration` (src/src/connection_pool.cpp
lines 537-582). -/

def shrinkGo (target : Nat) : List Nat → Nat → List Nat × Nat
  | [], total => ([], total)
  | c :: rest, total =>
    if total > target then shrinkGo target rest (total - 1)
    else (c :: rest, total)

def ConnectionPool.adjustConfiguration (s : PoolState)
    (newConfig : PoolConfig) : PoolState :=
  let s1 := { s with config := newConfig }
  if s1.total > newConfig.maxConnections ∧ s1.running then
    let r := shrinkGo newConfig.maxConnections s1.idle s1.total
    { s1 with idle := r.1, total := r.2 }
  else s1

/-! ## Reachable pool states.

A state is reachable when it arises from a successful `init` on a freshly
constructed pool followed by any sequence of complete `getConnection`,
`releaseConnection` (of a session actually checked out), health passes
(`cleanupIdleConnections` then `ensureMinimumConnections`) and
`adjustConfiguration` calls, each with arbitrary driver/clock oracles. -/

inductive Reachable : PoolState → Prop where
  | initial (create : Nat → Option (Nat × Bool)) (cfg : PoolConfig)
      (s : PoolState)
      (h : ConnectionPool.init create PoolState.initial cfg = .ok s)
      (hrun : s.running = true) :
      Reachable s
  | acquire (vIdle : Nat → Bool) (create : Nat → Option (Nat × Bool))
      (timeoutAt : Nat → Bool) (fuel : Nat) (s s2 : PoolState) (cid : Nat)
      (hs : Reachable s)
      (h : ConnectionPool.getConnection vIdle create timeoutAt fuel s
             = .ok s2 cid) :
      Reachable s2
  | acquireTimeout (vIdle : Nat → Bool) (create : Nat → Option (Nat × Bool))
      (timeoutAt : Nat → Bool) (fuel : Nat) (s s2 : PoolState)
      (hs : Reachable s)
      (h : ConnectionPool.getConnection vIdle create timeoutAt fuel s
             = .timeout s2) :
      Reachable s2
  | release (validRes : Bool) (createRes : Option (Nat × Bool))
      (s : PoolState) (cid : Nat)
      (hs : Reachable s) (hcid : cid ∈ s.active) :
      Reachable (ConnectionPool.releaseConnection validRes createRes s cid)
  | health (valid old : Nat → Bool) (create : Nat → Option (Nat × Bool))
      (s : PoolState) (hs : Reachable s) :
      Reachable (ConnectionPool.ensureMinimumConnections create
        (ConnectionPool.cleanupIdleConnections valid old s))
  | reconfigure (s : PoolState) (newConfig : PoolConfig)
      (hs : Reachable s) :
      Reachable (ConnectionPool.adjustConfiguration s newConfig)

/-! ## Concrete fixtures used by several theorems below. -/

/-- A valid configuration: `min = 1`, `max = 5`, `init = 1`. -/
def cfgA : PoolConfig :=
  { minConnections := 1
    maxConnections := 5
    initConnections := 1
    connectionTimeout := 5000
    maxIdleTime := 600000
    healthCheckPeriod := 30000
    reconnectInterval := 1000
    reconnectAttempts := 3 }

/-- Running pool holding exactly one idle session `7`: the result of a
successful `init` with `cfgA` whose single creation produced session `7`. -/
def sA : PoolState :=
  { config := cfgA, idle := [7], active := [], total := 1, running := true }

/-- Creation oracle producing session `7`, valid. -/
def createA (i : Nat) : Option (Nat × Bool) :=
  match i with
  | _ => some (7, true)

/-- Validation oracle: the first `validateConnection` call fails (transient
ping failure), every later one succeeds. -/
def vToggle (k : Nat) : Bool :=
  k != 0

/-! ## Claim C9 -/

/-- Claim C9: `Connection::isConnectionError` returns true for an error
kind `e` iff `e` is one of 2002, 2003, 2006, 2013, 2027, 2055; every other
kind is classified as a non-transport error. -/
theorem isConnectionError_iff_transport_set (e : Nat) :
    isConnectionError e = true ↔
      (e = 2002 ∨ e = 2003 ∨ e = 2006 ∨ e = 2013 ∨ e = 2027 ∨ e = 2055) := by
  unfold isConnectionError
  split_ifs <;> simp_all

/-! ## Claim C1 -/

/-- Claim C1 (code bug): with a live handle whose ping fails with
transport-error kind 2013 and `try_reconnect = true`,
`Connection::isValid` returns `true` without ever delegating to
`reconnect` — whose result here would be `false` — because every control
path inside the locked block returns, making the trailing
`return reconnect();` unreachable. -/
theorem isValid_transport_error_returns_true :
    Connection.isValid true false 2013 true false = true ∧
    isConnectionError 2013 = true := by
  decide

/-! ## Claim C3 -/

/-- Claim C3 (code bug): on a pool whose idle queue holds the single
session `7` with `total = 1`, one `getConnection` loop iteration in which
the head fails validation decrements `total` to 0 but leaves session `7`
in the idle queue: `m_idleConnections.pop()` is only executed on the valid
path, contradicting the claimed pop-then-validate behaviour. -/
theorem getConnection_invalid_head_not_popped :
    ConnectionPool.getConnection (fun _ => false) (fun _ => none)
        (fun _ => false) 1 sA
      = .outOfFuel
          { config := cfgA, idle := [7], active := [], total := 0,
            running := true } := by
  decide

/-! ## Claim C2 -/

/-- Claim C2 (code bug): a reachable pool state — reached by `init`
creating one session followed by a single `getConnection` whose idle-head
validation fails once and then succeeds — violates
`idle_count + checked_out_count = total_sessions`: the state has one
checked-out session and an empty idle queue but `total_sessions = 0`,
because the invalid-head branch decremented the counter without popping
the queue. -/
theorem reachable_state_violates_count_invariant :
    ∃ s : PoolState, Reachable s ∧
      s.idle.length + s.active.length ≠ s.total := by
  refine ⟨{ config := cfgA, idle := [], active := [7], total := 0,
            running := true }, ?_, by decide⟩
  have h0 : ConnectionPool.init createA PoolState.initial cfgA = .ok sA := by
    rfl
  have h1 : Reachable sA := Reachable.initial createA cfgA sA h0 rfl
  exact Reachable.acquire vToggle (fun _ => none) (fun _ => false) 2 sA _ 7 h1
    (by decide)

/-! ## Claim C10 -/

/-- Claim C10: `releaseConnection` never checks membership in the
checked-out map: releasing the same still-valid session twice (or a
session the pool never handed out) appends it to the idle queue both
times and leaves `total_sessions` unchanged, so one session occupies two
idle slots. -/
theorem releaseConnection_no_membership_check (s : PoolState) (cid : Nat)
    (cr1 cr2 : Option (Nat × Bool))
    (h : s.total ≤ s.config.maxConnections) :
    (ConnectionPool.releaseConnection true cr2
        (ConnectionPool.releaseConnection true cr1 s cid) cid).idle
      = s.idle ++ [cid, cid]
    ∧ (ConnectionPool.releaseConnection true cr2
        (ConnectionPool.releaseConnection true cr1 s cid) cid).total
      = s.total := by
  have hnot : ¬ s.total > s.config.maxConnections := not_lt.mpr h
  unfold ConnectionPool.releaseConnection
  simp [hnot]

/-- Witness for C10: on the running one-session pool `sA`, releasing
session 7 twice yields the idle queue `[7, 7, 7]` and total still 1. -/
theorem releaseConnection_no_membership_check_witness :
    (ConnectionPool.releaseConnection true none
        (ConnectionPool.releaseConnection true none sA 7) 7).idle
      = sA.idle ++ [7, 7]
    ∧ (ConnectionPool.releaseConnection true none
        (ConnectionPool.releaseConnection true none sA 7) 7).total
      = sA.total :=
  releaseConnection_no_membership_check sA 7 none none (by decide)

/-! ## Claim C4 -/

/-- An invalid configuration: `minConnections = 0`. -/
def badCfg : PoolConfig :=
  { PoolConfig.defaults with minConnections := 0 }

/-- Counterexample to claim C4: calling `init` on the already-running pool
`sA` does not raise — the source logs a warning and returns normally —
and the state is unchanged. -/
theorem init_on_running_pool_does_not_raise :
    ConnectionPool.init (fun _ => none) sA PoolConfig.defaults = .ok sA := by
  rfl

/-- Claim C4 (amended): `init` on a running pool returns without raising
and leaves the state unchanged; on a stopped pool with an invalid
configuration it raises, again leaving the state unchanged; and the
configuration is invalid exactly when `min = 0`, `max = 0`, `min > max`,
`init > max`, or one of the three timeouts is 0. -/
theorem init_failure_behaviour (create : Nat → Option (Nat × Bool))
    (s : PoolState) (cfg : PoolConfig) :
    (s.running = true → ConnectionPool.init create s cfg = .ok s)
    ∧ (s.running = false → cfg.isValid = false →
        ConnectionPool.init create s cfg
          = .error
            "ConnectionPool::init init connectionPool, but config is not valid")
    ∧ (cfg.isValid = false ↔
        (cfg.minConnections = 0 ∨ cfg.maxConnections = 0 ∨
         cfg.minConnections > cfg.maxConnections ∨
         cfg.initConnections > cfg.maxConnections ∨
         cfg.connectionTimeout = 0 ∨ cfg.maxIdleTime = 0 ∨
         cfg.healthCheckPeriod = 0)) := by
  refine ⟨fun hrun => ?_, fun hrun hcfg => ?_, ?_⟩
  · simp [ConnectionPool.init, hrun]
  · simp [ConnectionPool.init, hrun, hcfg]
  · unfold PoolConfig.isValid
    split_ifs <;> simp_all <;> tauto

/-- Witness for C4's amended theorem: `init` on the running pool `sA`
returns it unchanged without raising, and `init` on a fresh pool with
`minConnections = 0` raises the config error. -/
theorem init_failure_behaviour_witness :
    ConnectionPool.init (fun _ => some (9, true)) sA PoolConfig.defaults
      = .ok sA
    ∧ ConnectionPool.init (fun _ => some (9, true)) PoolState.initial badCfg
      = .error
        "ConnectionPool::init init connectionPool, but config is not valid" :=
  ⟨(init_failure_behaviour (fun _ => some (9, true)) sA PoolConfig.defaults).1
      rfl,
   (init_failure_behaviour (fun _ => some (9, true)) PoolState.initial
      badCfg).2.1 rfl (by decide)⟩

/-! ## Claim C5 -/

/-- Counterexample to claim C5: the pool `sA` enters cleanup with
`total = min = 1` and its single idle session valid but idle longer than
`maxIdleTime`.  The claim says the session is kept (`total ≤ min`) and the
pass ends with `total ≥ min`; the source keeps only when `total < min`
(strict), so it discards the session and ends with `total = 0 < 1`. -/
theorem cleanup_discards_at_exact_minimum :
    (ConnectionPool.cleanupIdleConnections (fun _ => true) (fun _ => true)
        sA).total = 0
    ∧ (ConnectionPool.cleanupIdleConnections (fun _ => true) (fun _ => true)
        sA).idle = []
    ∧ sA.config.minConnections = 1 ∧ sA.total = 1 := by
  decide

/-- The cleanup walk never drops the live counter below `minC - 1` when
every queued session is valid. -/
theorem cleanupGo_total_floor (minC : Nat) (valid old : Nat → Bool) :
    ∀ (idle keep : List Nat) (total : Nat),
      (∀ c ∈ idle, valid c = true) → minC - 1 ≤ total →
      minC - 1 ≤ (cleanupGo minC valid old idle keep total).2 := by
  intro idle
  induction idle with
  | nil => intro keep total _ htot; simpa [cleanupGo] using htot
  | cons c rest ih =>
    intro keep total hv htot
    have hc : valid c = true := hv c (List.mem_cons_self c rest)
    have hv2 : ∀ x ∈ rest, valid x = true :=
      fun x hx => hv x (List.mem_cons_of_mem c hx)
    by_cases ho : old c = true
    · by_cases ht : total < minC
      · simpa [cleanupGo, hc, ho, ht] using ih (keep ++ [c]) total hv2 htot
      · have : minC - 1 ≤ total - 1 := by omega
        simpa [cleanupGo, hc, ho, ht] using ih keep (total - 1) hv2 this
    · simpa [cleanupGo, hc, ho] using ih (keep ++ [c]) total hv2 htot

/-- Claim C5 (amended): during a cleanup pass a valid session past
`maxIdleTime` is kept only when the live `total_sessions` is *strictly*
below `min_connections` (first conjunct: one step of the walk), so a pass
entering with `total_sessions ≥ min_connections` and every idle session
valid can end one below the floor but no lower: afterwards
`total_sessions ≥ min_connections - 1` (second conjunct). -/
theorem cleanup_keeps_floor_minus_one (valid old : Nat → Bool)
    (s : PoolState)
    (hv : ∀ c ∈ s.idle, valid c = true)
    (hmin : 1 ≤ s.config.minConnections)
    (htot : s.config.minConnections ≤ s.total) :
    (∀ (c : Nat) (rest keep : List Nat) (total : Nat),
        valid c = true → old c = true → total < s.config.minConnections →
        cleanupGo s.config.minConnections valid old (c :: rest) keep total
          = cleanupGo s.config.minConnections valid old rest (keep ++ [c])
              total)
    ∧ s.config.minConnections - 1
      ≤ (ConnectionPool.cleanupIdleConnections valid old s).total := by
  constructor
  · intro c rest keep total hc ho ht
    simp [cleanupGo, hc, ho, ht]
  · have h : s.config.minConnections - 1 ≤ s.total := by omega
    simpa [ConnectionPool.cleanupIdleConnections] using
      cleanupGo_total_floor s.config.minConnections valid old s.idle []
        s.total hv h

/-- A second fixture pool for the C5 witness: `min = 2`, two idle valid
sessions, `total = 2`. -/
def sB : PoolState :=
  { config := { cfgA with minConnections := 2, initConnections := 2 }
    idle := [7, 8], active := [], total := 2, running := true }

/-- Witness for C5's amended theorem: on `sB` (with `min = 2`, both idle
sessions valid but aged) a valid aged session is kept when the counter is
below the minimum, and the pass ends with `total = 1 = min - 1`. -/
theorem cleanup_keeps_floor_minus_one_witness :
    cleanupGo sB.config.minConnections (fun _ => true) (fun _ => true)
        [9] [] 1
      = cleanupGo sB.config.minConnections (fun _ => true) (fun _ => true)
          [] ([] ++ [9]) 1
    ∧ sB.config.minConnections - 1
      ≤ (ConnectionPool.cleanupIdleConnections (fun _ => true)
          (fun _ => true) sB).total :=
  ⟨(cleanup_keeps_floor_minus_one (fun _ => true) (fun _ => true) sB
      (by decide) (by decide) (by decide)).1 9 [] [] 1 rfl rfl (by decide),
   (cleanup_keeps_floor_minus_one (fun _ => true) (fun _ => true) sB
      (by decide) (by decide) (by decide)).2⟩

/-! ## Claim C7 -/

/-- Counterexample to claim C7: with `reconnect_interval_ms = 7`,
`attempt = 1` and jitter draw `u = 0.801`, the capped base delay is
`D = min(7 · 2^0, 30000) = 7` and the jittered value is `5.607`, truncated
by the `static_cast<unsigned int>` to `5` — strictly below the claimed
closed-interval lower bound `0.8 · D = 5.6`. -/
theorem calculateReconnectDelay_below_claimed_bound :
    calculateReconnectDelay 7 1 (801 / 1000) = 5
    ∧ ((calculateReconnectDelay 7 1 (801 / 1000) : ℚ)
        < 4 / 5 * (cappedDelay 7 1 : ℚ)) := by
  have hc : cappedDelay 7 1 = 7 := by decide
  have hmax : max (1 : ℚ) ((cappedDelay 7 1 : ℚ) * (801 / 1000))
      = 5607 / 1000 := by
    rw [hc]
    norm_num
  have hfl : ⌊(5607 / 1000 : ℚ)⌋ = 5 := by
    rw [Int.floor_eq_iff]
    norm_num
  have h5 : calculateReconnectDelay 7 1 (801 / 1000) = 5 := by
    show (⌊max 1 ((cappedDelay 7 1 : ℚ) * (801 / 1000))⌋).toNat = 5
    rw [hmax, hfl]
    rfl
  refine ⟨h5, ?_⟩
  rw [h5, hc]
  norm_num

/-- Claim C7 (amended): for `1 ≤ attempt ≤ 31` (so the C++ shift is well
defined) and any jitter value `u ∈ [0.8, 1.2]`, writing
`D = min((reconnect_interval_ms · 2^(attempt-1)) mod 2^32, 30000)` for the
capped exponential delay as the `unsigned int` arithmetic computes it, the
returned delay is at least 1 ms and lies in the integer interval
`[max(1, ⌊0.8·D⌋), max(1, ⌊1.2·D⌋)]` — the truncation of the final cast
moves the bounds to floors, and the value 1 is the floor applied by
`std::max(1.0, ·)`. -/
theorem calculateReconnectDelay_bounds (base attempt : Nat) (u : ℚ)
    (h1 : 1 ≤ attempt) (h31 : attempt ≤ 31)
    (hu1 : (4 : ℚ) / 5 ≤ u) (hu2 : u ≤ (6 : ℚ) / 5) :
    1 ≤ calculateReconnectDelay base attempt u
    ∧ max 1 ⌊(4 : ℚ) / 5 * (cappedDelay base attempt : ℚ)⌋
        ≤ (calculateReconnectDelay base attempt u : ℤ)
    ∧ (calculateReconnectDelay base attempt u : ℤ)
        ≤ max 1 ⌊(6 : ℚ) / 5 * (cappedDelay base attempt : ℚ)⌋ := by
  have hD0 : (0 : ℚ) ≤ (cappedDelay base attempt : ℚ) := by positivity
  set D : ℚ := (cappedDelay base attempt : ℚ) with hDdef
  have hq : calculateReconnectDelay base attempt u
      = (⌊max 1 (D * u)⌋).toNat := rfl
  have h1q : (1 : ℚ) ≤ max 1 (D * u) := le_max_left _ _
  have hfl1 : (1 : ℤ) ≤ ⌊max 1 (D * u)⌋ := by
    rw [Int.le_floor]
    exact_mod_cast h1q
  have hcast : ((calculateReconnectDelay base attempt u : Nat) : ℤ)
      = ⌊max 1 (D * u)⌋ := by
    rw [hq]
    exact Int.toNat_of_nonneg (by omega)
  refine ⟨by omega, ?_, ?_⟩
  · have hlow : (4 : ℚ) / 5 * D ≤ D * u := by
      rw [mul_comm D u]
      exact mul_le_mul_of_nonneg_right hu1 hD0
    have : ⌊(4 : ℚ) / 5 * D⌋ ≤ ⌊max 1 (D * u)⌋ :=
      Int.floor_mono (le_trans hlow (le_max_right _ _))
    rw [hcast]
    exact max_le hfl1 this
  · have hhigh : D * u ≤ (6 : ℚ) / 5 * D := by
      rw [mul_comm D u]
      exact mul_le_mul_of_nonneg_right hu2 hD0
    have hmax : max 1 (D * u) ≤ max 1 ((6 : ℚ) / 5 * D) :=
      max_le_max le_rfl hhigh
    have hstep : ⌊max 1 ((6 : ℚ) / 5 * D)⌋
        ≤ max 1 ⌊(6 : ℚ) / 5 * D⌋ := by
      rcases le_total (1 : ℚ) ((6 : ℚ) / 5 * D) with hc | hc
      · rw [max_eq_right hc]
        exact le_max_right _ _
      · rw [max_eq_left hc]
        simpa using le_max_left (1 : ℤ) ⌊(6 : ℚ) / 5 * D⌋
    rw [hcast]
    exact le_trans (Int.floor_mono hmax) hstep

/-- Witness for C7's amended theorem at `base = 7`, `attempt = 1`,
`u = 1`: the delay is 7, between `max(1, ⌊5.6⌋) = 5` and
`max(1, ⌊8.4⌋) = 8`. -/
theorem calculateReconnectDelay_bounds_witness :
    1 ≤ calculateReconnectDelay 7 1 1
    ∧ max 1 ⌊(4 : ℚ) / 5 * (cappedDelay 7 1 : ℚ)⌋
        ≤ (calculateReconnectDelay 7 1 1 : ℤ)
    ∧ (calculateReconnectDelay 7 1 1 : ℤ)
        ≤ max 1 ⌊(6 : ℚ) / 5 * (cappedDelay 7 1 : ℚ)⌋ :=
  calculateReconnectDelay_bounds 7 1 1 (by norm_num) (by norm_num)
    (by norm_num) (by norm_num)

/-! ## Claim C6 -/

/-- The loop of `executeQueryWithReconnect` calls `executeInternal` at most
once per remaining attempt. -/
theorem ewrGo_execCalls_le (eo : Nat → ExecOutcome) (ro : Nat → Bool) :
    ∀ (n attempt : Nat) (msg : String) (calls : Nat),
      (ewrGo eo ro n attempt msg calls).execCalls ≤ calls + n := by
  intro n
  induction n with
  | zero =>
    intro attempt msg calls
    simp [ewrGo, QueryRunResult.execCalls]
  | succ n ih =>
    intro attempt msg calls
    by_cases hr : (decide (attempt > 0) && !(ro attempt)) = true
    · have step : ewrGo eo ro (n + 1) attempt msg calls
          = ewrGo eo ro n (attempt + 1) "Failed to reconnect" calls := by
        simp [ewrGo, hr]
      rw [step]
      exact le_trans (ih (attempt + 1) _ calls) (by omega)
    · have hr2 : (decide (attempt > 0) && !(ro attempt)) = false := by
        simpa using hr
      cases heo : eo attempt with
      | ok =>
        simp [ewrGo, hr2, heo, QueryRunResult.execCalls]
      | err c m =>
        by_cases hce : isConnectionError c = true
        · have step : ewrGo eo ro (n + 1) attempt msg calls
              = ewrGo eo ro n (attempt + 1) m (calls + 1) := by
            simp [ewrGo, hr2, heo, hce]
          rw [step]
          exact le_trans (ih (attempt + 1) m (calls + 1)) (by omega)
        · have hce2 : isConnectionError c = false := by simpa using hce
          simp [ewrGo, hr2, heo, hce2, QueryRunResult.execCalls]

/-- An immediately re-raised SQL error always carries a non-transport
kind. -/
theorem ewrGo_sqlError_not_transport (eo : Nat → ExecOutcome)
    (ro : Nat → Bool) :
    ∀ (n attempt : Nat) (msg : String) (calls c k : Nat),
      ewrGo eo ro n attempt msg calls = .sqlError c k →
      isConnectionError c = false := by
  intro n
  induction n with
  | zero =>
    intro attempt msg calls c k h
    simp [ewrGo] at h
  | succ n ih =>
    intro attempt msg calls c k h
    by_cases hr : (decide (attempt > 0) && !(ro attempt)) = true
    · rw [show ewrGo eo ro (n + 1) attempt msg calls
          = ewrGo eo ro n (attempt + 1) "Failed to reconnect" calls from
          by simp [ewrGo, hr]] at h
      exact ih _ _ _ _ _ h
    · have hr2 : (decide (attempt > 0) && !(ro attempt)) = false := by
        simpa using hr
      cases heo : eo attempt with
      | ok =>
        rw [show ewrGo eo ro (n + 1) attempt msg calls
            = .success (calls + 1) from by simp [ewrGo, hr2, heo]] at h
        simp at h
      | err c2 m =>
        by_cases hce : isConnectionError c2 = true
        · rw [show ewrGo eo ro (n + 1) attempt msg calls
              = ewrGo eo ro n (attempt + 1) m (calls + 1) from
              by simp [ewrGo, hr2, heo, hce]] at h
          exact ih _ _ _ _ _ h
        · have hce2 : isConnectionError c2 = false := by simpa using hce
          rw [show ewrGo eo ro (n + 1) attempt msg calls
              = .sqlError c2 (calls + 1) from
              by simp [ewrGo, hr2, heo, hce2]] at h
          cases h
          exact hce2

/-- A transport-kind error at an attempt whose reconnect (if any)
succeeded falls through to the next attempt with the message recorded and
one more `executeInternal` call counted. -/
theorem ewrGo_transport_step (eo : Nat → ExecOutcome) (ro : Nat → Bool)
    (n attempt : Nat) (msg : String) (calls c : Nat) (m : String)
    (hcm : eo attempt = .err c m) (hct : isConnectionError c = true)
    (hok : attempt = 0 ∨ ro attempt = true) :
    ewrGo eo ro (n + 1) attempt msg calls
      = ewrGo eo ro n (attempt + 1) m (calls + 1) := by
  have hg : (decide (attempt > 0) && !(ro attempt)) = false := by
    rcases hok with h | h
    · subst h; simp
    · simp [h]
  simp [ewrGo, hg, hcm, hct]

/-- When every attempt yields a transport error and every reconnect
succeeds, the loop exhausts its attempts and reports the last error's
message with one `executeInternal` call per attempt. -/
theorem ewrGo_all_transport (eo : Nat → ExecOutcome) (ro : Nat → Bool)
    (hro : ∀ a, ro a = true) :
    ∀ (n attempt : Nat) (msg : String) (calls : Nat),
      (∀ j, j < n →
        ∃ c m, eo (attempt + j) = .err c m ∧ isConnectionError c = true) →
      1 ≤ n →
      ∃ c m, eo (attempt + (n - 1)) = .err c m ∧
        ewrGo eo ro n attempt msg calls = .exhausted m (calls + n) := by
  intro n
  induction n with
  | zero =>
    intro attempt msg calls _ h1
    omega
  | succ n ih =>
    intro attempt msg calls hj _
    obtain ⟨c, m, hcm, hct⟩ := hj 0 (by omega)
    rw [Nat.add_zero] at hcm
    have hstep := ewrGo_transport_step eo ro n attempt msg calls c m hcm hct
      (Or.inr (hro attempt))
    cases n with
    | zero =>
      refine ⟨c, m, by simpa using hcm, ?_⟩
      rw [hstep]
      simp [ewrGo]
    | succ n2 =>
      have hj2 : ∀ j, j < n2 + 1 →
          ∃ c2 m2, eo (attempt + 1 + j) = .err c2 m2 ∧
            isConnectionError c2 = true := by
        intro j hlt
        obtain ⟨c2, m2, h1, h2⟩ := hj (j + 1) (by omega)
        exact ⟨c2, m2, by rw [show attempt + 1 + j = attempt + (j + 1) by omega]
                          exact h1, h2⟩
      obtain ⟨c2, m2, h1, h2⟩ :=
        ih (attempt + 1) m (calls + 1) hj2 (by omega)
      refine ⟨c2, m2, ?_, ?_⟩
      · rw [show attempt + (n2 + 1 + 1 - 1) = attempt + 1 + (n2 + 1 - 1)
            by omega]
        exact h1
      · rw [hstep, h2]
        congr 1
        omega

/-- Claim C6: `executeQueryWithReconnect` (i) invokes `executeInternal` at
most `reconnect_attempts + 1` times; (ii) an SQL error with a
non-transport kind is re-raised immediately as a runtime error; (iii) a
transport-kind error at an attempt whose preceding reconnect (if any)
succeeded falls through to the next attempt; (iv) if every attempt hits a
transport-kind error with all reconnects succeeding, the call exhausts all
attempts and raises a runtime error carrying the last error's message;
(v) a non-transport error on the first attempt aborts the call with a
single `executeInternal` invocation, regardless of the configured number
of reconnect attempts. -/
theorem executeQueryWithReconnect_behaviour (ra : Nat)
    (eo : Nat → ExecOutcome) (ro : Nat → Bool) :
    (executeQueryWithReconnect ra eo ro).execCalls ≤ ra + 1
    ∧ (∀ c k, executeQueryWithReconnect ra eo ro = .sqlError c k →
        isConnectionError c = false)
    ∧ (∀ (n attempt : Nat) (msg : String) (calls c : Nat) (m : String),
        eo attempt = .err c m → isConnectionError c = true →
        (attempt = 0 ∨ ro attempt = true) →
        ewrGo eo ro (n + 1) attempt msg calls
          = ewrGo eo ro n (attempt + 1) m (calls + 1))
    ∧ ((∀ a, a ≤ ra →
          ∃ c m, eo a = .err c m ∧ isConnectionError c = true) →
       (∀ a, ro a = true) →
       ∃ c m, eo ra = .err c m ∧
         executeQueryWithReconnect ra eo ro = .exhausted m (ra + 1))
    ∧ (∀ (c : Nat) (m : String), eo 0 = .err c m →
        isConnectionError c = false →
        executeQueryWithReconnect ra eo ro = .sqlError c 1) := by
  refine ⟨?_, ?_, ?_, ?_, ?_⟩
  · simpa [executeQueryWithReconnect] using
      ewrGo_execCalls_le eo ro (ra + 1) 0 "" 0
  · intro c k h
    exact ewrGo_sqlError_not_transport eo ro (ra + 1) 0 "" 0 c k h
  · intro n attempt msg calls c m h1 h2 h3
    exact ewrGo_transport_step eo ro n attempt msg calls c m h1 h2 h3
  · intro h hro
    obtain ⟨c, m, h1, h2⟩ := ewrGo_all_transport eo ro hro (ra + 1) 0 "" 0
      (fun j hlt => by simpa using h j (by omega)) (by omega)
    exact ⟨c, m, by simpa using h1,
      by simpa [executeQueryWithReconnect] using h2⟩
  · intro c m hcm hce
    simp [executeQueryWithReconnect, ewrGo, hcm, hce]

/-- Execute-outcome oracle for the C6 witness: every attempt fails with
transport-error kind 2013. -/
def eoW (_ : Nat) : ExecOutcome :=
  ExecOutcome.err 2013 "Lost connection to MySQL server during query"

/-- Reconnect oracle for the C6 witness: every reconnect succeeds. -/
def roW (_ : Nat) : Bool :=
  true

/-- Witness for C6 with `reconnect_attempts = 1` and every attempt failing
with transport kind 2013: at most 2 `executeInternal` calls, and the run
exhausts both attempts carrying the last message. -/
theorem executeQueryWithReconnect_behaviour_witness :
    (executeQueryWithReconnect 1 eoW roW).execCalls ≤ 1 + 1
    ∧ (∃ c m, eoW 1 = .err c m ∧
        executeQueryWithReconnect 1 eoW roW = .exhausted m (1 + 1)) :=
  ⟨(executeQueryWithReconnect_behaviour 1 eoW roW).1,
   (executeQueryWithReconnect_behaviour 1 eoW roW).2.2.2.1
     (fun a _ => ⟨2013, "Lost connection to MySQL server during query",
        rfl, by decide⟩)
     (fun _ => rfl)⟩

/-! ## Claim C8 -/

theorem prefixWeight_cons_succ (c : DBConfig) (rest : List DBConfig)
    (i : Nat) :
    prefixWeight (c :: rest) (i + 1) = c.weight + prefixWeight rest i := by
  simp [prefixWeight]

theorem prefixWeight_le_succ (l : List DBConfig) (i : Nat) :
    prefixWeight l i ≤ prefixWeight l (i + 1) := by
  unfold prefixWeight
  rw [List.take_succ]
  simp

theorem prefixWeight_mono (l : List DBConfig) : Monotone (prefixWeight l) :=
  monotone_nat_of_le_succ (prefixWeight_le_succ l)

/-- The accumulator walk of `selectWeighted` returns the descriptor whose
cumulative weight range contains the draw. -/
theorem selectWeightedGo_spec (r : Nat) :
    ∀ (l : List DBConfig) (acc : Nat),
      acc ≤ r → r < acc + totalWeights l →
      ∃ (i : Nat) (h : i < l.length),
        selectWeightedGo r l acc = some (l.get ⟨i, h⟩)
        ∧ acc + prefixWeight l i ≤ r
        ∧ r < acc + prefixWeight l (i + 1) := by
  intro l
  induction l with
  | nil =>
    intro acc h1 h2
    simp [totalWeights] at h2
    omega
  | cons c rest ih =>
    intro acc h1 h2
    by_cases hlt : r < acc + c.weight
    · refine ⟨0, by simp, ?_, ?_, ?_⟩
      · simp [selectWeightedGo, hlt]
      · simpa [prefixWeight] using h1
      · simpa [prefixWeight_cons_succ, prefixWeight] using hlt
    · have hge : acc + c.weight ≤ r := by omega
      have htw : totalWeights (c :: rest) = c.weight + totalWeights rest := by
        simp [totalWeights]
      have h2b : r < (acc + c.weight) + totalWeights rest := by omega
      obtain ⟨i, hi, heq, hlo, hhi⟩ := ih (acc + c.weight) hge h2b
      refine ⟨i + 1, by simpa using Nat.succ_lt_succ hi, ?_, ?_, ?_⟩
      · simpa [selectWeightedGo, hlt] using heq
      · rw [prefixWeight_cons_succ]; omega
      · rw [prefixWeight_cons_succ]; omega

/-- Claim C8: with the WEIGHTED strategy, a non-empty descriptor list with
all weights ≥ 1 and a draw `r < Σ weights`, `getNextDatabase` returns the
descriptor at the unique index whose cumulative weight range
`[prefix(i), prefix(i+1))` contains `r`; in particular the result is an
element of the list. -/
theorem getNextDatabase_weighted (lb : LoadBalancer) (r : Nat)
    (hs : lb.strategy = .WEIGHTED)
    (hne : lb.configs ≠ [])
    (hw : ∀ c ∈ lb.configs, 1 ≤ c.weight)
    (hr : r < totalWeights lb.configs) :
    ∃ (i : Nat) (h : i < lb.configs.length),
      getNextDatabase lb r = .ok (lb.configs.get ⟨i, h⟩)
      ∧ prefixWeight lb.configs i ≤ r
      ∧ r < prefixWeight lb.configs (i + 1)
      ∧ (∀ j, j < lb.configs.length →
          prefixWeight lb.configs j ≤ r →
          r < prefixWeight lb.configs (j + 1) → j = i)
      ∧ lb.configs.get ⟨i, h⟩ ∈ lb.configs := by
  obtain ⟨i, hi, heq, hlo, hhi⟩ :=
    selectWeightedGo_spec r lb.configs 0 (Nat.zero_le r) (by omega)
  have hemp : lb.configs.isEmpty = false := by
    simpa [List.isEmpty_iff] using hne
  refine ⟨i, hi, ?_, by simpa using hlo, by simpa using hhi, ?_,
    List.get_mem _ _ _⟩
  · unfold getNextDatabase
    rw [hemp, hs]
    simp [selectWeighted, heq]
  · intro j hj hjlo hjhi
    rcases Nat.lt_trichotomy j i with hlt | heqj | hgt
    · have hm := prefixWeight_mono lb.configs (show j + 1 ≤ i from hlt)
      omega
    · exact heqj
    · have hm := prefixWeight_mono lb.configs (show i + 1 ≤ j from hgt)
      omega

/-- Replica set for the C8 witness: three backends with weights 3, 2, 1,
WEIGHTED strategy. -/
def lbW : LoadBalancer :=
  { configs :=
      [ { host := "h1", user := "u", password := "p", database := "d",
          port := 3306, weight := 3 },
        { host := "h2", user := "u", password := "p", database := "d",
          port := 3306, weight := 2 },
        { host := "h3", user := "u", password := "p", database := "d",
          port := 3306, weight := 1 } ]
    strategy := .WEIGHTED
    roundRobinIndex := 0 }

/-- Witness for C8: on the weights-(3,2,1) replica set a draw of 3 selects
the descriptor of the unique cumulative range containing 3 (index 1). -/
theorem getNextDatabase_weighted_witness :
    ∃ (i : Nat) (h : i < lbW.configs.length),
      getNextDatabase lbW 3 = .ok (lbW.configs.get ⟨i, h⟩)
      ∧ prefixWeight lbW.configs i ≤ 3
      ∧ 3 < prefixWeight lbW.configs (i + 1)
      ∧ (∀ j, j < lbW.configs.length →
          prefixWeight lbW.configs j ≤ 3 →
          3 < prefixWeight lbW.configs (j + 1) → j = i)
      ∧ lbW.configs.get ⟨i, h⟩ ∈ lbW.configs :=
  getNextDatabase_weighted lbW 3 rfl (by simp [lbW])
    (by intro c hc; fin_cases hc <;> norm_num)
    (by norm_num [lbW, totalWeights])

end MySQLCP
